import Mathlib

/-!
Verification of the rust-websocket repository (websocket-hyper client
handshake plus the websocket-lowlevel frame/message layer) against its
natural-language specification.

The handshake side is embedded from `src/websocket-hyper/src/client.rs`:
the error enum `HttpUpgradeError`, the scheme-rewrite match, and the
response-validation sequence of `connect` (status check, accept-header
lookup through `HeaderValue::to_str`, byte-exact accept comparison).

The frame codec and message assembler live in repository modules that are
not part of the provided sources (only the `Message` trait declaration
is); those definitions are modelled from the specification, as noted on
each one.
-/

namespace Websocket

/-- Embedding of the `HttpUpgradeError` enum of
`src/websocket-hyper/src/client.rs`. The `hyper::Error` payload of
`UpgradeFailed` is opaque to this layer and carries no data here. -/
inductive HttpUpgradeError where
  | switchingProtocolsNotSupported (status : Nat)
  | noAcceptHeader
  | wrongAcceptHeader
  | upgradeFailed
  deriving DecidableEq, Repr

/-- The part of an HTTP response that `connect` inspects: the status code
and the raw bytes of the `Sec-WebSocket-Accept` header (`none` when the
header is absent). -/
structure UpgradeResponse where
  status : Nat
  secWebSocketAccept : Option (List Nat)
  deriving DecidableEq, Repr

/-- Predicate used by the `http` crate collaborator in
`HeaderValue::to_str`: a byte is a visible ASCII character (32..126) or a
horizontal tab. `to_str` succeeds exactly when every byte satisfies it. -/
def isVisibleAscii (b : Nat) : Bool :=
  (32 ≤ b && b < 127) || b == 9

/-- Embedding of `HeaderValue::to_str().ok()` from the `http` crate
collaborator: yields the header bytes when all are visible ASCII, `none`
otherwise. -/
def headerToStr (bytes : List Nat) : Option (List Nat) :=
  if bytes.all isVisibleAscii then some bytes else none

/-- Embedding of the response-validation sequence of `connect`
(`src/websocket-hyper/src/client.rs` lines 133-160): reject a status other
than 101 with `SwitchingProtocolsNotSupported`, then look up the
`Sec-WebSocket-Accept` header and read it through `to_str` (absence or an
unreadable value gives `NoAcceptHeader`), then compare it byte-for-byte
against the serialized expected accept value (`WrongAcceptHeader` on
mismatch). `Except.ok` is the point at which `connect` proceeds to the
upgrade takeover and frame mode. -/
def connectCheck (expectedAccept : List Nat) (res : UpgradeResponse) :
    Except HttpUpgradeError Unit :=
  if res.status ≠ 101 then
    .error (.switchingProtocolsNotSupported res.status)
  else
    match res.secWebSocketAccept.bind headerToStr with
    | none => .error .noAcceptHeader
    | some accept =>
      if expectedAccept ≠ accept then .error .wrongAcceptHeader
      else .ok ()

/-- The components of a `hyper::Uri` as exposed by `uri.into_parts()`:
scheme, authority (host), and path-and-query. -/
structure UriParts where
  scheme : Option String
  authority : Option String
  pathAndQuery : Option String
  deriving DecidableEq, Repr

/-- Outcome of the scheme-translation match in `connect`: either rebuilt
parts handed to `Uri::from_parts`, or the `unimplemented!()` arm, which
panics (it does not return a value to the caller). -/
inductive SchemeRewrite where
  | ok (parts : UriParts)
  | unimplemented
  deriving DecidableEq, Repr

/-- Embedding of the `ws`/`wss` to `http`/`https` translation match of
`connect` (`src/websocket-hyper/src/client.rs` lines 86-104): `http` and
`https` pass through unchanged, `ws` becomes `http`, `wss` becomes
`https`, and every other scheme — including an absent one — falls to the
`unimplemented!()` arm. Only the scheme field is ever modified. -/
def rewriteScheme (parts : UriParts) : SchemeRewrite :=
  match parts.scheme with
  | some s =>
    if s = "http" ∨ s = "https" then .ok parts
    else if s = "ws" then .ok { parts with scheme := some "http" }
    else if s = "wss" then .ok { parts with scheme := some "https" }
    else .unimplemented
  | none => .unimplemented

/-- Modelled from the spec: the frame opcode enum of the frame codec
(`websocket-lowlevel`, dataframe module, absent from the provided
sources). The six assigned opcode values; every other nibble is an
invalid opcode and a decode failure. -/
inductive Opcode where
  | continuation
  | text
  | binary
  | close
  | ping
  | pong
  deriving DecidableEq, Repr

/-- Wire nibble of each opcode, per the standard WebSocket framing
format the spec requires byte-for-byte compatibility with. -/
def Opcode.toNat : Opcode → Nat
  | .continuation => 0
  | .text => 1
  | .binary => 2
  | .close => 8
  | .ping => 9
  | .pong => 10

/-- Partial inverse of `Opcode.toNat`; `none` on a reserved nibble. -/
def Opcode.ofNat? (n : Nat) : Option Opcode :=
  if n = 0 then some .continuation
  else if n = 1 then some .text
  else if n = 2 then some .binary
  else if n = 8 then some .close
  else if n = 9 then some .ping
  else if n = 10 then some .pong
  else none

/-- Control opcodes are Close, Ping and Pong. -/
def Opcode.isControl : Opcode → Bool
  | .close => true
  | .ping => true
  | .pong => true
  | _ => false

/-- A 4-byte mask key. -/
abbrev MaskKey := Nat × Nat × Nat × Nat

/-- Byte `i mod 4` of a mask key. -/
def maskKeyByte (key : MaskKey) (i : Nat) : Nat :=
  match i % 4 with
  | 0 => key.1
  | 1 => key.2.1
  | 2 => key.2.2.1
  | _ => key.2.2.2

/-- Modelled from the spec: the payload masking transform of the frame
codec (absent from the provided sources) starting at payload index `i` —
XOR byte `i` of the payload with byte `i mod 4` of the mask key. The same
transform both masks and unmasks. -/
def maskFrom (key : MaskKey) (i : Nat) : List Nat → List Nat
  | [] => []
  | b :: rest => (b ^^^ maskKeyByte key i) :: maskFrom key (i + 1) rest

/-- Masking (or unmasking) a whole payload. -/
def maskPayload (key : MaskKey) (payload : List Nat) : List Nat :=
  maskFrom key 0 payload

/-- Modelled from the spec: a wire Frame of the frame codec (absent from
the provided sources): `fin` flag, opcode, optional 4-byte mask key
(present iff the masked bit is set), and payload bytes. The reserved
bits are required to be zero on the wire and are not represented. -/
structure Frame where
  fin : Bool
  opcode : Opcode
  mask : Option MaskKey
  payload : List Nat
  deriving DecidableEq, Repr

/-- Modelled from the spec: the encoder's choice of payload-length
encoding — the 7-bit length field value together with the extended
length bytes (empty, 2 bytes big-endian, or 8 bytes big-endian), the
smallest encoding that fits. -/
def lenFieldParts (n : Nat) : Nat × List Nat :=
  if n ≤ 125 then (n, [])
  else if n < 65536 then (126, [n / 256 % 256, n % 256])
  else (127, [n / 2 ^ 56 % 256, n / 2 ^ 48 % 256, n / 2 ^ 40 % 256,
              n / 2 ^ 32 % 256, n / 2 ^ 24 % 256, n / 2 ^ 16 % 256,
              n / 2 ^ 8 % 256, n % 256])

/-- Modelled from the spec: the decoder's reading of the payload length —
given the 7-bit length field and the remaining bytes, read 2 further
big-endian bytes when the field is 126, 8 when it is 127 (rejecting a
set most-significant bit), and otherwise take the field value itself.
Returns the payload length and the unconsumed bytes. -/
def decodeLen (len7 : Nat) (rest : List Nat) : Option (Nat × List Nat) :=
  if len7 = 126 then
    match rest with
    | e0 :: e1 :: r => some (e0 * 256 + e1, r)
    | _ => none
  else if len7 = 127 then
    match rest with
    | e0 :: e1 :: e2 :: e3 :: e4 :: e5 :: e6 :: e7 :: r =>
      if 128 ≤ e0 then none
      else some (e0 * 2 ^ 56 + e1 * 2 ^ 48 + e2 * 2 ^ 40 + e3 * 2 ^ 32 +
                 e4 * 2 ^ 24 + e5 * 2 ^ 16 + e6 * 2 ^ 8 + e7, r)
    | _ => none
  else some (len7, rest)

/-- Modelled from the spec: the frame encoder (absent from the provided
sources). Emits the two-byte header (`fin` bit, opcode nibble, mask bit,
7-bit length field), the extended length bytes, the mask key when
present, and the payload — masked when a key is present. -/
def encodeFrame (f : Frame) : List Nat :=
  let lp := lenFieldParts f.payload.length
  let b0 := (if f.fin then 128 else 0) + f.opcode.toNat
  let b1 := (if f.mask.isSome then 128 else 0) + lp.1
  let maskBytes := match f.mask with
    | some (k0, k1, k2, k3) => [k0, k1, k2, k3]
    | none => []
  let body := match f.mask with
    | some key => maskPayload key f.payload
    | none => f.payload
  b0 :: b1 :: (lp.2 ++ maskBytes ++ body)

/-- Modelled from the spec: the frame decoder (absent from the provided
sources). Reads the two header bytes (rejecting non-zero reserved bits
and invalid opcodes), the extended length (rejecting a 64-bit length
with the most-significant bit set), the mask key when the mask bit is
set, and exactly the announced number of payload bytes, unmasking them
when masked; rejects control frames that are fragmented or have a
payload longer than 125 bytes, and fails on a truncated stream. Returns
the frame and the unconsumed bytes. -/
def decodeFrame (bytes : List Nat) : Option (Frame × List Nat) :=
  match bytes with
  | b0 :: b1 :: rest =>
    if b0 % 128 / 16 ≠ 0 then none
    else
      match Opcode.ofNat? (b0 % 16) with
      | none => none
      | some op =>
        let fin : Bool := decide (128 ≤ b0)
        let masked : Bool := decide (128 ≤ b1)
        match decodeLen (b1 % 128) rest with
        | none => none
        | some (n, rest2) =>
          if op.isControl && (!fin || decide (125 < n)) then none
          else if masked then
            match rest2 with
            | k0 :: k1 :: k2 :: k3 :: rest3 =>
              if rest3.length < n then none
              else some (⟨fin, op, some (k0, k1, k2, k3),
                          maskPayload (k0, k1, k2, k3) (rest3.take n)⟩,
                         rest3.drop n)
            | _ => none
          else
            if rest2.length < n then none
            else some (⟨fin, op, none, rest2.take n⟩, rest2.drop n)
  | _ => none

/-- Modelled from the spec: an application-level Message of the message
assembler (absent from the provided sources). Text payloads are kept as
their assembled bytes here; the UTF-8 validation the spec requires
happens after assembly and is not needed by the properties below. -/
inductive Msg where
  | text (payload : List Nat)
  | binary (payload : List Nat)
  | ping (payload : List Nat)
  | pong (payload : List Nat)
  | close (code : Option Nat) (reason : List Nat)
  deriving DecidableEq, Repr

/-- Modelled from the spec: the per-connection fragmentation state of the
message assembler — `idle`, or accumulating a fragmented message with
its opcode and payload buffer. -/
inductive AssemblerState where
  | idle
  | accumulating (opcode : Opcode) (buffer : List Nat)
  deriving DecidableEq, Repr

/-- A protocol violation in the message assembler: the connection fails
closed. -/
inductive AssembleError where
  | protocolViolation
  deriving DecidableEq, Repr

/-- The message emitted when a data message completes: Text for the text
opcode, Binary otherwise. -/
def dataMsg (op : Opcode) (payload : List Nat) : Msg :=
  match op with
  | .text => .text payload
  | _ => .binary payload

/-- Modelled from the spec: one transition of the message assembler state
machine (absent from the provided sources; the provided
`Message::from_dataframes` trait declaration names the operation).
Control frames emit immediately in any state (a Close with a non-empty
payload shorter than 2 bytes is a protocol violation; otherwise its
first two bytes are the big-endian status code and the rest the reason);
data frames start, extend, or finish the single in-progress fragmented
message; a Continuation while `idle` and a fresh Text or Binary frame
while `accumulating` fail closed, emitting nothing. -/
def assemblerStep (s : AssemblerState) (f : Frame) :
    Except AssembleError (AssemblerState × Option Msg) :=
  match f.opcode with
  | .ping => .ok (s, some (.ping f.payload))
  | .pong => .ok (s, some (.pong f.payload))
  | .close =>
    match f.payload with
    | [] => .ok (s, some (.close none []))
    | [_] => .error .protocolViolation
    | b0 :: b1 :: rest => .ok (s, some (.close (some (b0 * 256 + b1)) rest))
  | .continuation =>
    match s with
    | .idle => .error .protocolViolation
    | .accumulating op buf =>
      if f.fin then .ok (.idle, some (dataMsg op (buf ++ f.payload)))
      else .ok (.accumulating op (buf ++ f.payload), none)
  | op =>
    match s with
    | .idle =>
      if f.fin then .ok (.idle, some (dataMsg op f.payload))
      else .ok (.accumulating op f.payload, none)
    | .accumulating _ _ => .error .protocolViolation

section Lemmas

/-- Masking is length-preserving. -/
theorem maskFrom_length (key : MaskKey) (i : Nat) (p : List Nat) :
    (maskFrom key i p).length = p.length := by
  induction p generalizing i with
  | nil => rfl
  | cons b rest ih => simp [maskFrom, ih]

/-- Applying the XOR mask twice from the same start index restores the
payload. -/
theorem maskFrom_maskFrom (key : MaskKey) (i : Nat) (p : List Nat) :
    maskFrom key i (maskFrom key i p) = p := by
  induction p generalizing i with
  | nil => rfl
  | cons b rest ih =>
    simp [maskFrom, ih, Nat.xor_cancel_right]

/-- Masking a whole payload is an involution. -/
theorem maskPayload_maskPayload (key : MaskKey) (p : List Nat) :
    maskPayload key (maskPayload key p) = p :=
  maskFrom_maskFrom key 0 p

/-- The reserved bits of an encoded first header byte are zero. -/
theorem headerByte_rsv (fin : Bool) (op : Opcode) :
    ((if fin then 128 else 0) + op.toNat) % 128 / 16 = 0 := by
  cases fin <;> cases op <;> decide

/-- The opcode nibble of an encoded first header byte decodes back. -/
theorem headerByte_opcode (fin : Bool) (op : Opcode) :
    Opcode.ofNat? (((if fin then 128 else 0) + op.toNat) % 16) = some op := by
  cases fin <;> cases op <;> decide

/-- The fin bit of an encoded first header byte decodes back. -/
theorem headerByte_fin (fin : Bool) (op : Opcode) :
    decide (128 ≤ (if fin then 128 else 0) + op.toNat) = fin := by
  cases fin <;> cases op <;> decide

/-- The 7-bit length field chosen by the encoder fits in 7 bits. -/
theorem lenFieldParts_le (n : Nat) : (lenFieldParts n).1 ≤ 127 := by
  unfold lenFieldParts
  split_ifs <;> simp <;> omega

/-- The length field survives the mask bit. -/
theorem maskBit_mod (m : Bool) (l : Nat) (h : l ≤ 127) :
    ((if m then 128 else 0) + l) % 128 = l := by
  cases m <;> simp <;> omega

/-- The mask bit of an encoded second header byte decodes back. -/
theorem maskBit_decide (m : Bool) (l : Nat) (h : l ≤ 127) :
    decide (128 ≤ (if m then 128 else 0) + l) = m := by
  cases m <;> simp <;> omega

/-- The decoder's length reading inverts the encoder's length encoding,
for lengths below `2 ^ 63`, leaving the rest of the stream intact. -/
theorem decodeLen_lenFieldParts (n : Nat) (h : n < 2 ^ 63) (r : List Nat) :
    decodeLen (lenFieldParts n).1 ((lenFieldParts n).2 ++ r) = some (n, r) := by
  unfold lenFieldParts decodeLen
  split_ifs with h1 h2 <;> simp_all <;> omega

/-- Decoding the encoding of a well-formed frame (payload below the
64-bit sign limit; control frames final with payload at most 125 bytes)
returns the frame itself and leaves any trailing bytes unconsumed. -/
theorem decodeFrame_encodeFrame (f : Frame) (tail : List Nat)
    (hlen : f.payload.length < 2 ^ 63)
    (hctrl : f.opcode.isControl = true → f.fin = true ∧ f.payload.length ≤ 125) :
    decodeFrame (encodeFrame f ++ tail) = some (f, tail) := by
  obtain ⟨fin, op, mask, payload⟩ := f
  simp only at hlen hctrl
  simp only [encodeFrame, List.cons_append, List.append_assoc]
  simp only [decodeFrame, headerByte_rsv, headerByte_opcode, headerByte_fin,
    maskBit_mod _ _ (lenFieldParts_le _), maskBit_decide _ _ (lenFieldParts_le _),
    decodeLen_lenFieldParts _ hlen, ne_eq, not_true_eq_false, if_false,
    ite_false, ite_true]
  cases hc : op.isControl with
  | true =>
    obtain ⟨hfin, hle⟩ := hctrl hc
    subst hfin
    simp only [hc, Bool.not_true, Bool.false_or, decide_eq_false (Nat.not_lt.mpr hle),
      Bool.true_and, ite_false, Bool.false_eq_true, if_false]
    cases mask with
    | none =>
      simp only [Option.isSome_none, Bool.false_eq_true, if_false,
        List.nil_append, List.length_nil, List.length_append]
      rw [if_neg (by omega)]
      simp only [List.take_left, List.drop_left]
    | some key =>
      obtain ⟨k0, k1, k2, k3⟩ := key
      simp only [Option.isSome_some, if_true, List.cons_append, List.nil_append]
      rw [show payload.length = (maskPayload (k0, k1, k2, k3) payload).length from
        (maskFrom_length _ 0 payload).symm]
      simp only [List.length_append, Nat.not_lt.mpr (Nat.le_add_right _ _), if_false,
        List.take_left, List.drop_left, maskPayload_maskPayload, maskFrom_length]
  | false =>
    simp only [hc, Bool.false_and, Bool.false_eq_true, if_false]
    cases mask with
    | none =>
      simp only [Option.isSome_none, Bool.false_eq_true, if_false,
        List.nil_append, List.length_nil, List.length_append]
      rw [if_neg (by omega)]
      simp only [List.take_left, List.drop_left]
    | some key =>
      obtain ⟨k0, k1, k2, k3⟩ := key
      simp only [Option.isSome_some, if_true, List.cons_append, List.nil_append]
      rw [show payload.length = (maskPayload (k0, k1, k2, k3) payload).length from
        (maskFrom_length _ 0 payload).symm]
      simp only [List.length_append, Nat.not_lt.mpr (Nat.le_add_right _ _), if_false,
        List.take_left, List.drop_left, maskPayload_maskPayload, maskFrom_length]

end Lemmas

/-- C1 (counterexample). With status 101 and a present
`Sec-WebSocket-Accept` header whose value is the single byte 0 (not a
readable header string) while the expected accept is the byte 120, the
value differs from the expected accept, yet `connect` fails with
`NoAcceptHeader`, not the wrong-accept-header failure — refuting that
every mismatch yields the single wrong-accept-header failure. -/
theorem claim_C1_counterexample :
    connectCheck [120] ⟨101, some [0]⟩ = .error .noAcceptHeader ∧
    ([0] : List Nat) ≠ [120] ∧
    HttpUpgradeError.noAcceptHeader ≠ HttpUpgradeError.wrongAcceptHeader := by
  refine ⟨rfl, by decide, by decide⟩

/-- C1 (amended). For every handshake response with status 101 whose
present `Sec-WebSocket-Accept` value is a readable header string (all
visible ASCII), `connect` succeeds iff the value equals the expected
accept byte-for-byte, and every such mismatch yields the single
wrong-accept-header failure; a present but unreadable value instead
yields the missing-accept-header failure. -/
theorem claim_C1_accept_comparison (exp v : List Nat) (res : UpgradeResponse)
    (h1 : res.status = 101) (h2 : res.secWebSocketAccept = some v)
    (h3 : v.all isVisibleAscii = true) :
    (connectCheck exp res = .ok () ↔ v = exp) ∧
    (v ≠ exp → connectCheck exp res = .error .wrongAcceptHeader) := by
  simp only [connectCheck, h1, h2, ne_eq, not_true_eq_false, if_false,
    Option.some_bind, headerToStr, h3, if_true]
  by_cases h : exp = v
  · subst h
    simp
  · rw [if_pos (by simpa using h)]
    refine ⟨⟨fun hcontra => Except.noConfusion hcontra,
             fun hv => absurd hv.symm h⟩, fun _ => rfl⟩

/-- C1 (witness). At expected accept bytes `[97, 98]` and header value
`[97, 99]` the amended theorem applies: the mismatch fails with exactly
the wrong-accept-header error. -/
theorem claim_C1_accept_comparison_witness :
    (connectCheck [97, 98] ⟨101, some [97, 99]⟩ = .ok () ↔ [97, 99] = [97, 98]) ∧
    (([97, 99] : List Nat) ≠ [97, 98] →
      connectCheck [97, 98] ⟨101, some [97, 99]⟩ = .error .wrongAcceptHeader) :=
  claim_C1_accept_comparison [97, 98] [97, 99] ⟨101, some [97, 99]⟩ rfl rfl (by decide)

/-- C2 (counterexample). A URI with scheme `ftp` falls into the
`unimplemented!()` arm of the scheme match, which panics — `connect` does
not return a typed unimplemented-scheme failure to the caller for such
input, refuting the claim as stated. -/
theorem claim_C2_counterexample :
    rewriteScheme ⟨some "ftp", some "example.com", some "/"⟩ =
      SchemeRewrite.unimplemented := by
  rfl

/-- C2 (amended). For every target URI whose scheme is not one of `ws`,
`wss`, `http`, `https` (including an absent scheme), `connect` reaches
the `unimplemented!()` arm — a panic, a deliberate scope limitation, not
a silent coercion and not a typed failure returned to the caller. -/
theorem claim_C2_unsupported_scheme (parts : UriParts)
    (h : ∀ s, parts.scheme = some s →
      s ≠ "ws" ∧ s ≠ "wss" ∧ s ≠ "http" ∧ s ≠ "https") :
    rewriteScheme parts = .unimplemented := by
  obtain ⟨s, a, p⟩ := parts
  cases s with
  | none => rfl
  | some s =>
    obtain ⟨h1, h2, h3, h4⟩ := h s rfl
    simp [rewriteScheme, h1, h2, h3, h4]

/-- C2 (witness). The amended theorem applies to the `ftp` scheme. -/
theorem claim_C2_unsupported_scheme_witness :
    rewriteScheme ⟨some "ftp", some "example.com", some "/"⟩ =
      SchemeRewrite.unimplemented :=
  claim_C2_unsupported_scheme ⟨some "ftp", some "example.com", some "/"⟩
    (by intro s hs; injection hs with hs; subst hs;
        exact ⟨by decide, by decide, by decide, by decide⟩)

/-- C3. Encoding a well-formed frame (payload length below the 64-bit
sign limit; control frames final with payload at most 125 bytes) and
decoding the resulting bytes yields the frame back, equal in every field
— the mask key included, since the encoder uses the frame's own key —
consuming the whole encoding; the decoded payload after unmasking equals
the original payload exactly. -/
theorem claim_C3_frame_roundtrip (f : Frame)
    (hlen : f.payload.length < 2 ^ 63)
    (hctrl : f.opcode.isControl = true → f.fin = true ∧ f.payload.length ≤ 125) :
    decodeFrame (encodeFrame f) = some (f, []) := by
  have h := decodeFrame_encodeFrame f [] hlen hctrl
  simpa using h

/-- C3 (witness). A final masked Text frame with payload `"Hi"` and mask
key (1, 2, 3, 4) round-trips. -/
theorem claim_C3_frame_roundtrip_witness :
    decodeFrame (encodeFrame ⟨true, .text, some (1, 2, 3, 4), [72, 105]⟩) =
      some (⟨true, .text, some (1, 2, 3, 4), [72, 105]⟩, []) :=
  claim_C3_frame_roundtrip ⟨true, .text, some (1, 2, 3, 4), [72, 105]⟩
    (by decide) (by decide)

/-- C4. For every payload and every 4-byte mask key, applying the XOR
masking operation (byte `i` of the payload XOR-ed with byte `i mod 4` of
the key) twice returns the original payload. -/
theorem claim_C4_mask_involution (key : MaskKey) (payload : List Nat) :
    maskPayload key (maskPayload key payload) = payload :=
  maskPayload_maskPayload key payload

/-- C5. For payload lengths 0, 125, 126, 65535 and 65536 the encoder's
length selection chooses the 7-bit, 7-bit, 16-bit, 16-bit and 64-bit
encodings respectively (the extended fields big-endian, as the explicit
bytes for 65535 and 65536 show), and the decoder's length reading
recovers the exact original length in each case. -/
theorem claim_C5_length_encodings :
    lenFieldParts 0 = (0, []) ∧
    lenFieldParts 125 = (125, []) ∧
    lenFieldParts 126 = (126, [0, 126]) ∧
    lenFieldParts 65535 = (126, [255, 255]) ∧
    lenFieldParts 65536 = (127, [0, 0, 0, 0, 0, 1, 0, 0]) ∧
    decodeLen (lenFieldParts 0).1 (lenFieldParts 0).2 = some (0, []) ∧
    decodeLen (lenFieldParts 125).1 (lenFieldParts 125).2 = some (125, []) ∧
    decodeLen (lenFieldParts 126).1 (lenFieldParts 126).2 = some (126, []) ∧
    decodeLen (lenFieldParts 65535).1 (lenFieldParts 65535).2 = some (65535, []) ∧
    decodeLen (lenFieldParts 65536).1 (lenFieldParts 65536).2 = some (65536, []) := by
  decide

/-- C6. For every handshake response whose status is not 101, `connect`
fails with the status-mismatch error carrying the observed status code,
and never reaches the `Except.ok` outcome that hands the stream to frame
mode. -/
theorem claim_C6_status_mismatch (exp : List Nat) (res : UpgradeResponse)
    (h : res.status ≠ 101) :
    connectCheck exp res = .error (.switchingProtocolsNotSupported res.status) ∧
    ∀ u, connectCheck exp res ≠ .ok u := by
  refine ⟨by simp [connectCheck, h], ?_⟩
  intro u
  simp [connectCheck, h]

/-- C6 (witness). A status-200 response fails with the status-mismatch
error carrying 200. -/
theorem claim_C6_status_mismatch_witness :
    connectCheck [97] ⟨200, some [97]⟩ =
      .error (.switchingProtocolsNotSupported 200) ∧
    ∀ u, connectCheck [97] ⟨200, some [97]⟩ ≠ .ok u :=
  claim_C6_status_mismatch [97] ⟨200, some [97]⟩ (by decide)

/-- C7. For a target URI with scheme `ws` or `wss` the scheme is
rewritten to `http` or `https` respectively, the authority (host) and
path-and-query components left unchanged; a URI already using `http` or
`https` passes through with its parts entirely unchanged. -/
theorem claim_C7_scheme_rewrite (parts : UriParts) :
    (parts.scheme = some "ws" →
      rewriteScheme parts =
        .ok ⟨some "http", parts.authority, parts.pathAndQuery⟩) ∧
    (parts.scheme = some "wss" →
      rewriteScheme parts =
        .ok ⟨some "https", parts.authority, parts.pathAndQuery⟩) ∧
    (parts.scheme = some "http" ∨ parts.scheme = some "https" →
      rewriteScheme parts = .ok parts) := by
  obtain ⟨s, a, p⟩ := parts
  refine ⟨fun h => ?_, fun h => ?_, fun h => ?_⟩
  · simp only at h
    subst h
    rfl
  · simp only at h
    subst h
    rfl
  · simp only at h
    rcases h with h | h <;> (subst h; rfl)

/-- C7 (witness). A `ws` URI rewrites to `http` preserving host and
path-and-query, and an `https` URI passes through unchanged. -/
theorem claim_C7_scheme_rewrite_witness :
    rewriteScheme ⟨some "ws", some "example.com", some "/chat?x=1"⟩ =
      .ok ⟨some "http", some "example.com", some "/chat?x=1"⟩ ∧
    rewriteScheme ⟨some "https", some "example.com", some "/chat?x=1"⟩ =
      .ok ⟨some "https", some "example.com", some "/chat?x=1"⟩ :=
  ⟨(claim_C7_scheme_rewrite ⟨some "ws", some "example.com", some "/chat?x=1"⟩).1
      rfl,
   (claim_C7_scheme_rewrite
      ⟨some "https", some "example.com", some "/chat?x=1"⟩).2.2 (Or.inr rfl)⟩

/-- C8. A 101 response without a `Sec-WebSocket-Accept` header fails
with the missing-accept-header error, a variant distinct from the
wrong-accept-header error. -/
theorem claim_C8_missing_accept (exp : List Nat) (res : UpgradeResponse)
    (h1 : res.status = 101) (h2 : res.secWebSocketAccept = none) :
    connectCheck exp res = .error .noAcceptHeader ∧
    HttpUpgradeError.noAcceptHeader ≠ HttpUpgradeError.wrongAcceptHeader := by
  refine ⟨by simp [connectCheck, h1, h2], by decide⟩

/-- C8 (witness). The theorem applies to the response with status 101
and no accept header. -/
theorem claim_C8_missing_accept_witness :
    connectCheck [97] ⟨101, none⟩ = .error .noAcceptHeader ∧
    HttpUpgradeError.noAcceptHeader ≠ HttpUpgradeError.wrongAcceptHeader :=
  claim_C8_missing_accept [97] ⟨101, none⟩ rfl rfl

/-- C9. The message assembler rejects as a protocol violation — an error
outcome that emits no message and fails the connection closed — both a
Continuation frame received while `idle` and a fresh Text or Binary
frame received while a fragmented message is accumulating. -/
theorem claim_C9_fragmentation_violations (f g : Frame) (op : Opcode)
    (buf : List Nat) (hf : f.opcode = .continuation)
    (hg : g.opcode = .text ∨ g.opcode = .binary) :
    assemblerStep .idle f = .error .protocolViolation ∧
    assemblerStep (.accumulating op buf) g = .error .protocolViolation := by
  constructor
  · simp [assemblerStep, hf]
  · rcases hg with hg | hg <;> simp [assemblerStep, hg]

/-- C9 (witness). A final Continuation frame while idle and a final Text
frame while accumulating a Text message are both protocol violations. -/
theorem claim_C9_fragmentation_violations_witness :
    assemblerStep .idle ⟨true, .continuation, none, []⟩ =
      .error .protocolViolation ∧
    assemblerStep (.accumulating .text [72]) ⟨true, .text, none, [105]⟩ =
      .error .protocolViolation :=
  claim_C9_fragmentation_violations ⟨true, .continuation, none, []⟩
    ⟨true, .text, none, [105]⟩ .text [72] rfl (Or.inl rfl)

/-- C10. A 101 response whose present `Sec-WebSocket-Accept` value is
not a readable header string (some byte is not visible ASCII, so
`to_str` fails) yields the missing-accept-header failure
`NoAcceptHeader`, not the wrong-accept-header failure. -/
theorem claim_C10_unreadable_accept (exp v : List Nat) (res : UpgradeResponse)
    (h1 : res.status = 101) (h2 : res.secWebSocketAccept = some v)
    (h3 : v.all isVisibleAscii = false) :
    connectCheck exp res = .error .noAcceptHeader ∧
    HttpUpgradeError.noAcceptHeader ≠ HttpUpgradeError.wrongAcceptHeader := by
  refine ⟨?_, by decide⟩
  have hts : headerToStr v = none := by
    simp only [headerToStr, h3, Bool.false_eq_true, if_false]
  simp [connectCheck, h1, h2, hts]

/-- C10 (witness). The theorem applies to a header value consisting of
the single byte 0. -/
theorem claim_C10_unreadable_accept_witness :
    connectCheck [97] ⟨101, some [0]⟩ = .error .noAcceptHeader ∧
    HttpUpgradeError.noAcceptHeader ≠ HttpUpgradeError.wrongAcceptHeader :=
  claim_C10_unreadable_accept [97] [0] ⟨101, some [0]⟩ rfl rfl (by decide)

end Websocket
